import Mathlib

/-!
Verification of the domain-analysis pipeline of the Diagnosticador SEO
repository: a shallow embedding in Lean 4 of the scoring-weight
normalization (`app/config.py`), the multi-factor keyword scorer and
bucket classifier (`app/services/scorer.py`), the keyword-extraction
fusion and semantic deduplication (`app/services/nlp.py`), the
intelligent sitemap URL selection (`app/services/sitemap.py`), the
retrying HTTP fetcher (`app/services/fetcher.py`), and the domain-level
orchestration (`app/main.py`), together with proofs of the testable
properties stated in the specification.

Python floats are modelled as exact rationals (`ℚ`); dates are modelled
as integer day numbers; network effects are modelled by passing the
outcome of each external call as an explicit argument.
-/

set_option allowUnsafeReducibility true

attribute [semireducible] Rat.add Rat.mul Rat.sub Rat.div Rat.inv Rat.neg

namespace SeoPipeline

/-! ## Scoring weights (`app/config.py`, `ScoringWeights`) -/

/-- Embedding of the pydantic model `ScoringWeights` (`app/config.py`,
lines 10-16).  Each field is declared there with `Field(ge=0, le=1)`, so a
validated instance always has every component in `[0, 1]`; the fields
themselves are plain numbers. -/
structure ScoringWeights where
  w1_frequency : ℚ
  w2_tfidf : ℚ
  w3_cooccurrence : ℚ
  w4_position_title : ℚ
  w5_similarity_brand : ℚ
deriving DecidableEq, Repr

/-- The sum `total` computed at `app/config.py` lines 20-21. -/
def ScoringWeights.total (w : ScoringWeights) : ℚ :=
  w.w1_frequency + w.w2_tfidf + w.w3_cooccurrence + w.w4_position_title +
    w.w5_similarity_brand

/-- Embedding of `ScoringWeights.normalize_weights` (`app/config.py`,
lines 18-27): when the component sum is positive every component is
divided by it, otherwise the weights are left untouched. -/
def ScoringWeights.normalize_weights (w : ScoringWeights) : ScoringWeights :=
  let total := w.total
  if 0 < total then
    { w1_frequency := w.w1_frequency / total
      w2_tfidf := w.w2_tfidf / total
      w3_cooccurrence := w.w3_cooccurrence / total
      w4_position_title := w.w4_position_title / total
      w5_similarity_brand := w.w5_similarity_brand / total }
  else w

/-! ## Multi-factor keyword score (`app/services/scorer.py`,
`KeywordScorer.calculate_keyword_score`) -/

/-- Result of one of the five sub-score helpers
(`_calculate_frequency_score`, `_calculate_tfidf_score`,
`_calculate_cooccurrence_score`, `_calculate_position_score`,
`_calculate_similarity_score`, `app/services/scorer.py` lines 75-269).
Each helper wraps its computation in `try/except` and returns `0.0` on
any internal exception, so a sub-score is either a computed value or a
recorded failure. -/
inductive SubScore where
  | ok (v : ℚ)
  | failed
deriving DecidableEq, Repr

/-- The value a sub-score helper actually returns to its caller: the
computed value, or `0.0` on the `except` branch. -/
def SubScore.value : SubScore → ℚ
  | .ok v => v
  | .failed => 0

/-- Clamp to `[0, 1]`, the `max(0.0, min(1.0, final_score))` expression of
`app/services/scorer.py` line 62. -/
def clamp01 (x : ℚ) : ℚ := max 0 (min 1 x)

/-- Embedding of `KeywordScorer.calculate_keyword_score`
(`app/services/scorer.py`, lines 27-73).  The five sub-scores are passed
as explicit `SubScore` results (their text-processing internals call into
external NLP libraries and are black boxes to this development); the
function forms the weighted sum of lines 53-59 and clamps it to `[0, 1]`
at line 62. -/
def calculate_keyword_score (w : ScoringWeights)
    (freq tfidf cooc pos sim : SubScore) : ℚ :=
  clamp01 (w.w1_frequency * freq.value + w.w2_tfidf * tfidf.value +
    w.w3_cooccurrence * cooc.value + w.w4_position_title * pos.value +
    w.w5_similarity_brand * sim.value)

/-! ## Keyword candidates and semantic deduplication
(`app/services/nlp.py`) -/

/-- A keyword candidate as produced by the YAKE / KeyBERT providers and
passed through fusion (`app/services/nlp.py`): a dictionary with keys
`term`, `score`, `source`. -/
structure RawKeyword where
  term : String
  score : ℚ
  source : String
deriving DecidableEq, Repr

/-- Placeholder keyword used for out-of-range index lookups; the loops
below only ever index inside the list. -/
def defaultRawKeyword : RawKeyword := ⟨"", 0, ""⟩

/-- Term of the keyword at index `i` of the candidate list
(`keywords[i]['term']`). -/
def termAt (l : List RawKeyword) (i : ℕ) : String :=
  (l.getD i defaultRawKeyword).term

/-- Score of the keyword at index `i` of the candidate list
(`keywords[i]['score']`). -/
def scoreAt (l : List RawKeyword) (i : ℕ) : ℚ :=
  (l.getD i defaultRawKeyword).score

/-- Inner loop of `NLPService._deduplicate_by_similarity`
(`app/services/nlp.py`, lines 257-268): for a fixed row `i`, columns `j`
already marked removed are skipped; a column whose similarity to `i`
exceeds the threshold is removed when its score is not higher, otherwise
row `i` itself is removed and the loop breaks.  `simF i j` is the cosine
similarity `similarity_matrix[i][j]` of the embeddings of the two terms,
`scoreF` the score at an index, and `R` the `to_remove` set, represented
as a list of indices. -/
def dedupInner (n : ℕ) (simF : ℕ → ℕ → ℚ) (scoreF : ℕ → ℚ) (t : ℚ)
    (i j : ℕ) (R : List ℕ) : List ℕ :=
  if h : j < n then
    if j ∈ R then dedupInner n simF scoreF t i (j + 1) R
    else if t < simF i j then
      if scoreF j ≤ scoreF i then dedupInner n simF scoreF t i (j + 1) (j :: R)
      else i :: R
    else dedupInner n simF scoreF t i (j + 1) R
  else R
termination_by n - j

/-- Outer loop of `NLPService._deduplicate_by_similarity`
(`app/services/nlp.py`, lines 253-268): rows already marked removed are
skipped, every other row runs the inner loop over the later columns. -/
def dedupOuter (n : ℕ) (simF : ℕ → ℕ → ℚ) (scoreF : ℕ → ℚ) (t : ℚ)
    (i : ℕ) (R : List ℕ) : List ℕ :=
  if h : i < n then
    if i ∈ R then dedupOuter n simF scoreF t (i + 1) R
    else dedupOuter n simF scoreF t (i + 1) (dedupInner n simF scoreF t i (i + 1) R)
  else R
termination_by n - i

/-- The final filter of `_deduplicate_by_similarity`
(`app/services/nlp.py`, line 271): keep the elements whose position is
not in `to_remove`, preserving order.  `i` is the index of the head of
the remaining list. -/
def filterByIndex (R : List ℕ) : ℕ → List RawKeyword → List RawKeyword
  | _, [] => []
  | i, a :: as =>
    if i ∈ R then filterByIndex R (i + 1) as
    else a :: filterByIndex R (i + 1) as

/-- The `to_remove` set computed by the two nested loops of
`_deduplicate_by_similarity`, starting from the empty set. -/
def removedIndices (sim : String → String → ℚ) (t : ℚ)
    (keywords : List RawKeyword) : List ℕ :=
  dedupOuter keywords.length (fun i j => sim (termAt keywords i) (termAt keywords j))
    (scoreAt keywords) t 0 []

/-- Embedding of `NLPService._deduplicate_by_similarity`
(`app/services/nlp.py`, lines 232-278).  Lists of length at most one are
returned unchanged (line 236).  The cosine similarity of the embeddings
of two terms is a fixed function of the terms, passed as `sim`; `t` is
`settings.similarity_threshold`. -/
def deduplicate_by_similarity (sim : String → String → ℚ) (t : ℚ)
    (keywords : List RawKeyword) : List RawKeyword :=
  if keywords.length ≤ 1 then keywords
  else filterByIndex (removedIndices sim t keywords) 0 keywords

/-! ## String helpers shared by the NLP, scorer and sitemap embeddings -/

/-- Whether the character list `h` starts with the character list `n`. -/
def charsLeadWith : List Char → List Char → Bool
  | [], _ => true
  | _ :: _, [] => false
  | a :: as, b :: bs => a = b && charsLeadWith as bs

/-- Whether the character list `n` occurs inside the character list `h`. -/
def charsContain (h n : List Char) : Bool :=
  if charsLeadWith n h then true
  else
    match h with
    | [] => false
    | _ :: t => charsContain t n

/-- Python's `needle in haystack` substring test for strings. -/
def strContains (hay needle : String) : Bool :=
  charsContain hay.toList needle.toList

/-- Python's `str.strip()`: drop leading and trailing whitespace. -/
def pyStrip (s : String) : String :=
  ⟨(((s.toList.dropWhile Char.isWhitespace).reverse.dropWhile
      Char.isWhitespace).reverse)⟩

/-- Python's `str.lower()`, character by character. -/
def pyLower (s : String) : String := ⟨s.toList.map Char.toLower⟩

/-- The grouping key `kw['term'].lower().strip()` of
`_merge_keyword_results` (`app/services/nlp.py`, line 203). -/
def normTerm (s : String) : String := pyStrip (pyLower s)

/-- Order-preserving removal of exact duplicates, keeping the first
occurrence — the behaviour of insertion into a Python dict keyed by the
group key. -/
def dedupKeepFirstAux [DecidableEq α] (seen : List α) : List α → List α
  | [] => []
  | a :: l =>
    if a ∈ seen then dedupKeepFirstAux seen l
    else a :: dedupKeepFirstAux (a :: seen) l

/-- Order-preserving exact deduplication starting from nothing seen. -/
def dedupKeepFirst [DecidableEq α] (l : List α) : List α :=
  dedupKeepFirstAux [] l

/-! ## Stable descending sort

Python's `list.sort(key=..., reverse=True)` is a stable sort in
descending key order: it keeps elements with higher keys first and
preserves the original relative order of elements with equal keys.  Any
stable descending sort computes the same list, so it is embedded here as
a stable insertion sort parametrised by `ge a b`, meaning "the key of `a`
is at least the key of `b`" (so `a`, the earlier element, may stay in
front of `b`). -/

/-- Insert `a` into an already sorted list: `a` goes in front of the
first element whose key it reaches (`ge a b`), hence after every element
with a strictly larger key and before every later element with an equal
key. -/
def insertWith (ge : α → α → Bool) (a : α) : List α → List α
  | [] => [a]
  | b :: l => if ge a b then a :: b :: l else b :: insertWith ge a l

/-- Stable descending insertion sort. -/
def sortWith (ge : α → α → Bool) : List α → List α
  | [] => []
  | a :: l => insertWith ge a (sortWith ge l)

/-! ## Keyword fusion and extraction (`app/services/nlp.py`) -/

/-- The exact-term merge of one group of `_merge_keyword_results`
(`app/services/nlp.py`, lines 209-222): a singleton group passes through
unchanged; a larger group becomes one candidate carrying the first
member's term, the mean of the scores, and the joined source tags.
Python joins `list(set(sources))`, whose order is unspecified; the
embedding joins the distinct sources in first-occurrence order. -/
def mergeGroup (group : List RawKeyword) : RawKeyword :=
  match group with
  | [kw] => kw
  | _ =>
    { term := (group.headD defaultRawKeyword).term
      score := (group.map RawKeyword.score).sum / group.length
      source := String.intercalate "+" (dedupKeepFirst (group.map RawKeyword.source)) }

/-- Embedding of `NLPService._merge_keyword_results`
(`app/services/nlp.py`, lines 189-230): concatenate both providers'
candidates, group them by the case-normalized stripped term in
first-occurrence order, merge each group, then collapse near-duplicates
with `_deduplicate_by_similarity` and sort by score descending. -/
def merge_keyword_results (yake_results keybert_results : List RawKeyword)
    (sim : String → String → ℚ) (t : ℚ) : List RawKeyword :=
  let all := yake_results ++ keybert_results
  if all.isEmpty then []
  else
    let keys := dedupKeepFirst (all.map fun kw => normTerm kw.term)
    let merged := keys.map fun k =>
      mergeGroup (all.filter fun kw => normTerm kw.term = k)
    let final := deduplicate_by_similarity sim t merged
    sortWith (fun a b => decide (b.score ≤ a.score)) final

/-- Embedding of `NLPService.extract_keywords` (`app/services/nlp.py`,
lines 45-95).  The guard of line 56 returns the empty list whenever the
text is empty or shorter than 50 characters after stripping; otherwise
the two providers run (their outputs are passed in as `yake_results` and
`keybert_results`, each already empty if that provider raised), the
results are fused and the top `max_keywords` are kept. -/
def extract_keywords (text : String) (yake_results keybert_results : List RawKeyword)
    (sim : String → String → ℚ) (t : ℚ) (max_keywords : ℕ) : List RawKeyword :=
  if (pyStrip text).length < 50 then []
  else (merge_keyword_results yake_results keybert_results sim t).take max_keywords

/-! ## Bucket classification (`app/services/scorer.py`,
`KeywordScorer.bucketize_keywords` / `_classify_keyword_bucket`) -/

/-- Brand information as consumed by the scorer: the `name` and `domain`
entries of the `brand_info` dictionary (missing entries are the empty
string, as with `brand_info.get('name', '')`). -/
structure BrandInfo where
  name : String
  domain : String
deriving DecidableEq, Repr

/-- A scored keyword, the `{'term': ..., 'score': ...}` dictionaries
flowing into `bucketize_keywords`. -/
structure ScoredKeyword where
  term : String
  score : ℚ
deriving DecidableEq, Repr

/-- The three bucket names returned by `_classify_keyword_bucket`. -/
inductive Bucket where
  | cliente
  | producto_o_post
  | generales_seo
deriving DecidableEq, Repr

/-- The `product_keywords` pattern list of `app/services/scorer.py`,
lines 350-353. -/
def product_keywords : List String :=
  ["precio", "comprar", "oferta", "descuento", "envío", "entrega",
   "talla", "color", "marca", "modelo", "especificaciones"]

/-- The `blog_keywords` pattern list of `app/services/scorer.py`,
lines 366-369. -/
def blog_keywords : List String :=
  ["tutorial", "guía", "cómo", "paso", "método", "técnica",
   "ejemplo", "caso", "experiencia", "opinión", "review"]

/-- Truthiness-guarded membership test `domain_keywords and keyword in
domain_keywords`: `None` and the empty dict are falsy.  The dict is
modelled as an association list. -/
def domainHas (dk : Option (List (String × ℚ))) (k : String) : Bool :=
  match dk with
  | none => false
  | some l => !l.isEmpty && l.any fun p => p.1 = k

/-- Lookup `domain_keywords[keyword]` (first matching key). -/
def domainGet (dk : Option (List (String × ℚ))) (k : String) : ℚ :=
  match dk with
  | none => 0
  | some l => (((l.find? fun p => p.1 = k).map Prod.snd).getD 0)

/-- Embedding of `KeywordScorer._classify_keyword_bucket`
(`app/services/scorer.py`, lines 326-389): brand terms go to `cliente`;
terms with domain-wide frequency above `0.1` go to `cliente`; otherwise
the page-type specific pattern lists and domain recurrence decide between
`producto_o_post` and `generales_seo`.  The `score` argument is accepted
and ignored exactly as in the source.  The body raises no exception, so
the `except` branch returning `generales_seo` is unreachable. -/
def classify_keyword_bucket (keyword : String) (score : ℚ) (page_type : String)
    (brand : BrandInfo) (dk : Option (List (String × ℚ))) : Bucket :=
  let kl := pyLower keyword
  let bn := pyLower brand.name
  let bd := pyLower brand.domain
  if bn ≠ "" && (kl = bn || strContains bn kl || strContains kl bn) then
    .cliente
  else if bd ≠ "" && strContains bd kl then
    .cliente
  else if domainHas dk keyword && decide (1/10 < domainGet dk keyword) then
    .cliente
  else if page_type = "ecommerce" then
    if product_keywords.any (fun pk => strContains kl pk) then .producto_o_post
    else if domainHas dk keyword then .generales_seo
    else .producto_o_post
  else if page_type = "blog" then
    if blog_keywords.any (fun bk => strContains kl bk) then .producto_o_post
    else if domainHas dk keyword then .generales_seo
    else .producto_o_post
  else
    if domainHas dk keyword then .generales_seo
    else .producto_o_post

/-- The three bucket lists built by `bucketize_keywords`. -/
structure Buckets where
  cliente : List ScoredKeyword
  producto_o_post : List ScoredKeyword
  generales_seo : List ScoredKeyword
deriving DecidableEq, Repr

/-- Embedding of `KeywordScorer.bucketize_keywords`
(`app/services/scorer.py`, lines 271-324): each keyword is appended to
the bucket chosen by `_classify_keyword_bucket` (so each bucket holds the
input keywords it classifies, in input order), then every bucket is
sorted by score descending (Python's stable sort) and truncated to its
top 30 entries. -/
def bucketize_keywords (keywords : List ScoredKeyword) (page_type : String)
    (brand : BrandInfo) (dk : Option (List (String × ℚ))) : Buckets :=
  let post := fun l => (sortWith (fun a b : ScoredKeyword =>
    decide (b.score ≤ a.score)) l).take 30
  { cliente := post (keywords.filter fun kd =>
      decide (classify_keyword_bucket kd.term kd.score page_type brand dk = .cliente))
    producto_o_post := post (keywords.filter fun kd =>
      decide (classify_keyword_bucket kd.term kd.score page_type brand dk = .producto_o_post))
    generales_seo := post (keywords.filter fun kd =>
      decide (classify_keyword_bucket kd.term kd.score page_type brand dk = .generales_seo)) }

/-- The terms occurring in a bucket list. -/
def bucketTerms (l : List ScoredKeyword) : List String :=
  l.map ScoredKeyword.term

/-- How many input keywords `_classify_keyword_bucket` sends to bucket
`b` — the length of bucket `b` before the per-bucket sort and top-30
truncation of `bucketize_keywords`. -/
def classifiedCount (keywords : List ScoredKeyword) (page_type : String)
    (brand : BrandInfo) (dk : Option (List (String × ℚ))) (b : Bucket) : ℕ :=
  (keywords.filter fun kd =>
    decide (classify_keyword_bucket kd.term kd.score page_type brand dk = b)).length

/-! ## Intelligent URL selection (`app/services/sitemap.py`) -/

/-- A sitemap URL record as built by `_extract_url_data_with_dates`
(`app/services/sitemap.py`, lines 501-552): the URL, the optional
last-modification date (modelled as an integer day number), the sitemap
priority and the computed relevance score.  The `changefreq` field is
omitted: the selection logic never reads it. -/
structure URLRec where
  url : String
  lastmod : Option ℤ
  priority : ℚ
  relevance_score : ℚ
deriving DecidableEq, Repr

/-- The alternatives of the six `relevant_patterns` regexes of
`_calculate_relevance_score` (`app/services/sitemap.py`, lines 358-365);
each regex is an alternation of plain substrings. -/
def relevant_patterns : List (List String) :=
  [["/producto/", "/product/", "/item/"],
   ["/articulo/", "/article/", "/post/", "/blog/"],
   ["/categoria/", "/category/"],
   ["/servicio/", "/service/"],
   ["/nosotros/", "/about/", "/sobre/"],
   ["/contacto/", "/contact/"]]

/-- The alternatives of the four `keyword_patterns` regexes of
`_calculate_relevance_score` (`app/services/sitemap.py`, lines 377-382). -/
def keyword_patterns : List (List String) :=
  [["/guia/", "/guide/", "/tutorial/"],
   ["/mejor/", "/best/", "/top/"],
   ["/precio/", "/price/", "/cost/"],
   ["/oferta/", "/offer/", "/deal/"]]

/-- Embedding of `SitemapService._calculate_relevance_score`
(`app/services/sitemap.py`, lines 347-388): base `0.5`, plus
`priority * 0.3`, plus `0.1` per matching relevant pattern, minus
`0.1 * (depth - 4)` for URLs deeper than 4 path segments (`depth` is the
slash count minus 2), plus `0.05` per matching keyword pattern, clamped
to `[0, 1]`. -/
def calculate_relevance_score (url : String) (priority : ℚ) : ℚ :=
  let u := pyLower url
  let base : ℚ := 1/2 + priority * (3/10)
  let bonus1 : ℚ :=
    ((relevant_patterns.filter fun g => g.any fun p => strContains u p).length : ℚ) * (1/10)
  let depth : ℤ := (u.toList.count '/' : ℤ) - 2
  let penalty : ℚ := if 4 < depth then (1/10) * ((depth - 4 : ℤ) : ℚ) else 0
  let bonus2 : ℚ :=
    ((keyword_patterns.filter fun g => g.any fun p => strContains u p).length : ℚ) * (1/20)
  clamp01 (base + bonus1 - penalty + bonus2)

/-- Suffix test for the regex `/\d+$`: the URL ends in a slash followed
by one or more digits. -/
def endsWithSlashDigits (l : List Char) : Bool :=
  let r := l.reverse
  let ds := r.takeWhile Char.isDigit
  !ds.isEmpty && charsLeadWith ['/'] (r.drop ds.length)

/-- Suffix test for the regex `/[a-z0-9-]+-\d+$`: the URL ends in a
slash, a nonempty run of `[a-z0-9-]` characters, a hyphen and one or
more digits. -/
def endsWithProductId (l : List Char) : Bool :=
  let r := l.reverse
  let ds := r.takeWhile Char.isDigit
  if ds.isEmpty then false
  else
    match r.drop ds.length with
    | '-' :: r2 =>
      let body := r2.takeWhile fun c => c.isLower || c.isDigit || c = '-'
      !body.isEmpty && charsLeadWith ['/'] (r2.drop body.length)
    | _ => false

/-- The plain-substring product patterns of `_is_product_url`
(`app/services/sitemap.py`, lines 626-628). -/
def product_url_markers : List String :=
  ["/product/", "/products/", "/item/", "/items/",
   "/shop/", "/tienda/", "/comprar/", "/buy/"]

/-- The blog patterns of `_is_blog_url` (`app/services/sitemap.py`,
lines 636-640). -/
def blog_url_markers : List String :=
  ["/blog/", "/news/", "/noticias/", "/articulos/",
   "/post/", "/posts/", "/article/", "/articles/",
   "/tutorial/", "/guia/", "/guide/"]

/-- The category patterns of `_is_category_url`
(`app/services/sitemap.py`, lines 645-649). -/
def category_url_markers : List String :=
  ["/category/", "/categoria/", "/categorias/",
   "/section/", "/seccion/", "/departamento/",
   "/department/", "/rubro/"]

/-- The landing-page patterns of `_is_landing_page` other than `/$`
(`app/services/sitemap.py`, lines 654-659). -/
def landing_url_markers : List String :=
  ["/home/", "/inicio/", "/principal/",
   "/about/", "/acerca/", "/nosotros/",
   "/contact/", "/contacto/", "/contactanos/"]

/-- `SitemapService._is_product_url` (`app/services/sitemap.py`,
lines 624-632). -/
def is_product_url (url : String) : Bool :=
  let u := pyLower url
  product_url_markers.any (fun p => strContains u p) ||
    endsWithSlashDigits u.toList || endsWithProductId u.toList

/-- `SitemapService._is_blog_url` (`app/services/sitemap.py`,
lines 634-641). -/
def is_blog_url (url : String) : Bool :=
  let u := pyLower url
  blog_url_markers.any fun p => strContains u p

/-- `SitemapService._is_category_url` (`app/services/sitemap.py`,
lines 643-650). -/
def is_category_url (url : String) : Bool :=
  let u := pyLower url
  category_url_markers.any fun p => strContains u p

/-- `SitemapService._is_landing_page` (`app/services/sitemap.py`,
lines 652-660); the regex `/$` is the trailing-slash test. -/
def is_landing_page (url : String) : Bool :=
  let u := pyLower url
  charsLeadWith ['/'] u.toList.reverse ||
    landing_url_markers.any fun p => strContains u p

/-- The URL categories used by `_categorize_urls`. -/
inductive UrlCategory where
  | products
  | blog
  | categories
  | landing
  | other
deriving DecidableEq, Repr

/-- The if/elif categorization of `_categorize_urls`
(`app/services/sitemap.py`, lines 599-612): product patterns take
precedence, then blog, category and landing; everything else is
`other`. -/
def url_category (url : String) : UrlCategory :=
  if is_product_url url then .products
  else if is_blog_url url then .blog
  else if is_category_url url then .categories
  else if is_landing_page url then .landing
  else .other

/-- The category map built by `_categorize_urls`, with one list per
category (an absent `defaultdict` key and an empty list are
interchangeable for the selection loop, which appends nothing either
way). -/
structure Categorized where
  products : List URLRec
  blog : List URLRec
  categories : List URLRec
  landing : List URLRec
  other : List URLRec
deriving DecidableEq, Repr

/-- Comparison used to sort each category: Python's
`sort(key=lambda x: (x['relevance_score'], x['lastmod'] or datetime.min),
reverse=True)` — descending lexicographic order on the pair, a missing
date ranking below every date. -/
def catSortGe (a b : URLRec) : Bool :=
  decide (b.relevance_score < a.relevance_score) ||
    (decide (a.relevance_score = b.relevance_score) &&
      match b.lastmod, a.lastmod with
      | none, _ => true
      | some _, none => false
      | some x, some y => decide (x ≤ y))

/-- Embedding of `SitemapService._categorize_urls`
(`app/services/sitemap.py`, lines 595-622): split the records by URL
category (keeping input order) and sort each category by
`(relevance_score, lastmod)` descending. -/
def categorize_urls (urls : List URLRec) : Categorized :=
  { products := sortWith catSortGe
      (urls.filter fun u => decide (url_category u.url = .products))
    blog := sortWith catSortGe
      (urls.filter fun u => decide (url_category u.url = .blog))
    categories := sortWith catSortGe
      (urls.filter fun u => decide (url_category u.url = .categories))
    landing := sortWith catSortGe
      (urls.filter fun u => decide (url_category u.url = .landing))
    other := sortWith catSortGe
      (urls.filter fun u => decide (url_category u.url = .other)) }

/-- Append the URLs of `xs` to `sel` while fewer than `max_urls` URLs
are selected — the guarded append of the category loop in
`_select_by_categories`. -/
def addWhileRoom (max_urls : ℕ) (sel : List String) (xs : List URLRec) : List String :=
  xs.foldl (fun s x => if s.length < max_urls then s ++ [x.url] else s) sel

/-- Embedding of `SitemapService._select_by_categories`
(`app/services/sitemap.py`, lines 662-697): per-category quotas
`max(1, max_urls // k)` for `k = 3, 4, 6, 8, 8`, a pass over the
categories in priority order taking each category's top quota while
room remains, then — if the budget is not filled — a top-off pass over
all records sorted by relevance descending, skipping URLs already
selected, and a final truncation to `max_urls`.  The top-off
concatenates the categories in the fixed priority order; Python iterates
`categories.values()` in key-insertion order, and the subsequent stable
relevance sort makes the two agree except on cross-category relevance
ties. -/
def select_by_categories (c : Categorized) (max_urls : ℕ) : List String :=
  let sel1 := addWhileRoom max_urls (addWhileRoom max_urls (addWhileRoom max_urls
    (addWhileRoom max_urls (addWhileRoom max_urls []
      (c.products.take (max 1 (max_urls / 3))))
      (c.blog.take (max 1 (max_urls / 4))))
      (c.categories.take (max 1 (max_urls / 6))))
      (c.landing.take (max 1 (max_urls / 8))))
      (c.other.take (max 1 (max_urls / 8)))
  let sel2 :=
    if sel1.length < max_urls then
      let all_urls := sortWith
        (fun a b : URLRec => decide (b.relevance_score ≤ a.relevance_score))
        (c.products ++ c.blog ++ c.categories ++ c.landing ++ c.other)
      all_urls.foldl (fun s x =>
        if !s.contains x.url && s.length < max_urls then s ++ [x.url] else s) sel1
    else sel1
  sel2.take max_urls

/-- The recency filter of `_select_intelligent_urls`
(`app/services/sitemap.py`, lines 568-570): keep records with a
last-modification date at or after `five_days_ago`; records without a
date are dropped (`url['lastmod'] and ...`). -/
def recent_urls (urls : List URLRec) (five_days_ago : ℤ) : List URLRec :=
  urls.filter fun u =>
    match u.lastmod with
    | none => false
    | some d => decide (five_days_ago ≤ d)

/-- Embedding of `SitemapService._select_intelligent_urls`
(`app/services/sitemap.py`, lines 554-593): filter to the last five
days, fall back to the full record list when fewer than `max_urls`
recent records remain, categorize and select by category quotas.
`five_days_ago` stands for `datetime.now() - timedelta(days=5)`.  The
unused `domain` parameter of the source is dropped, and the `except`
fallback to `_select_by_relevance` is dead code on this total happy
path. -/
def select_intelligent_urls (urls_with_dates : List URLRec) (max_urls : ℕ)
    (five_days_ago : ℤ) : List String :=
  let recent := recent_urls urls_with_dates five_days_ago
  let urls_to_categorize :=
    if recent.length < max_urls then urls_with_dates else recent
  select_by_categories (categorize_urls urls_to_categorize) max_urls

/-! ## HTTP fetch with retries (`app/services/fetcher.py`,
`HTTPFetcher.fetch_url`) -/

/-- Outcome of one `self.client.get(url)` + `raise_for_status()` round:
a successful response (abstracted to an identifier), an
`httpx.HTTPStatusError` with its status code, an `httpx.RequestError`,
or any other exception. -/
inductive FetchOutcome where
  | success (resp : ℕ)
  | httpStatus (code : ℕ)
  | requestError
  | otherError
deriving DecidableEq, Repr

/-- Whether an outcome lets the retry loop continue: transport errors,
unexpected errors and HTTP status errors other than 404/403/401. -/
def FetchOutcome.retryable : FetchOutcome → Bool
  | .success _ => false
  | .httpStatus c => !(c == 404 || c == 403 || c == 401)
  | .requestError => true
  | .otherError => true

/-- Whether an outcome is a successful response. -/
def FetchOutcome.isSuccess : FetchOutcome → Bool
  | .success _ => true
  | _ => false

/-- Trace of one `fetch_url` call: the returned value (`None` on
failure), the number of attempts performed, and the list of backoff
waits (in seconds) slept between attempts. -/
structure FetchResult where
  result : Option ℕ
  attempts : ℕ
  waits : List ℕ
deriving DecidableEq, Repr

/-- The retry loop of `HTTPFetcher.fetch_url`
(`app/services/fetcher.py`, lines 74-105), continued from iteration
`attempt` of `for attempt in range(retries + 1)`.  The network is
modelled by `outcomes`, giving the result of the `attempt`-th GET.  A
success returns the response; a 404/403/401 status breaks out of the
loop immediately (lines 88-90) without sleeping; any other failure
sleeps `2 ** attempt` seconds when further attempts remain (lines
98-102); a loop that finishes without success returns `None`
(line 105). -/
def fetchGo (outcomes : ℕ → FetchOutcome) (retries attempt : ℕ) : FetchResult :=
  if h : attempt ≤ retries then
    match outcomes attempt with
    | .success r => ⟨some r, attempt + 1, []⟩
    | .httpStatus code =>
      if code == 404 || code == 403 || code == 401 then ⟨none, attempt + 1, []⟩
      else if attempt < retries then
        let rest := fetchGo outcomes retries (attempt + 1)
        ⟨rest.result, rest.attempts, 2 ^ attempt :: rest.waits⟩
      else ⟨none, attempt + 1, []⟩
    | .requestError =>
      if attempt < retries then
        let rest := fetchGo outcomes retries (attempt + 1)
        ⟨rest.result, rest.attempts, 2 ^ attempt :: rest.waits⟩
      else ⟨none, attempt + 1, []⟩
    | .otherError =>
      if attempt < retries then
        let rest := fetchGo outcomes retries (attempt + 1)
        ⟨rest.result, rest.attempts, 2 ^ attempt :: rest.waits⟩
      else ⟨none, attempt + 1, []⟩
  else ⟨none, attempt, []⟩
termination_by retries - attempt

/-- Embedding of `HTTPFetcher.fetch_url` (`app/services/fetcher.py`,
lines 60-105): run the retry loop from the first attempt. -/
def fetch_url (outcomes : ℕ → FetchOutcome) (retries : ℕ) : FetchResult :=
  fetchGo outcomes retries 0

/-! ## Domain-level orchestration (`app/main.py`, `analyze_domain`) -/

/-- Result of the `analyze_domain` endpoint as far as error surfacing is
concerned: a successful response carrying the processed page results, or
an `HTTPException` with its status code and detail. -/
inductive DomainOutcome where
  | ok (total_urls : ℕ) (processed : List ℕ)
  | httpError (status : ℕ) (detail : String)
deriving DecidableEq, Repr

/-- Embedding of the decision skeleton of `analyze_domain`
(`app/main.py`, lines 205-321).  `urls_to_process` is the list returned
by the intelligent URL selection; `process_url` models the per-page
pipeline of lines 228-290, which returns `None` when the page fails to
download or analyze (exceptions from `asyncio.gather` are likewise
filtered out at lines 297-302, so a page contributes iff `process_url`
yields a result, abstracted to an identifier).  With no URLs the
endpoint returns an empty zero summary (lines 209-215); with URLs but no
valid results it raises HTTP 500 (lines 304-308); otherwise it returns
the aggregated response. -/
def analyze_domain (urls_to_process : List String)
    (process_url : String → Option ℕ) : DomainOutcome :=
  if urls_to_process.isEmpty then .ok 0 []
  else
    let valid_results := urls_to_process.filterMap process_url
    if valid_results.isEmpty then
      .httpError 500 "No se pudieron procesar URLs válidas"
    else .ok valid_results.length valid_results

/-! ## Theorems -/

theorem clamp01_nonneg (x : ℚ) : 0 ≤ clamp01 x := le_max_left 0 _

theorem clamp01_le_one (x : ℚ) : clamp01 x ≤ 1 := by
  unfold clamp01
  exact max_le (by norm_num) (min_le_left 1 x)

/-- C4: normalizing a weight vector whose components are nonnegative (as
the pydantic `Field(ge=0)` bounds guarantee) with at least one positive
component yields components summing to exactly `1`, hence to `1.0` within
`1e-9`. -/
theorem normalize_weights_sums_to_one (w : ScoringWeights)
    (h1 : 0 ≤ w.w1_frequency) (h2 : 0 ≤ w.w2_tfidf)
    (h3 : 0 ≤ w.w3_cooccurrence) (h4 : 0 ≤ w.w4_position_title)
    (h5 : 0 ≤ w.w5_similarity_brand)
    (hpos : 0 < w.w1_frequency ∨ 0 < w.w2_tfidf ∨ 0 < w.w3_cooccurrence ∨
      0 < w.w4_position_title ∨ 0 < w.w5_similarity_brand) :
    w.normalize_weights.total = 1 ∧
      |w.normalize_weights.total - 1| ≤ 1 / 1000000000 := by
  have htot : 0 < w.total := by
    unfold ScoringWeights.total
    rcases hpos with h | h | h | h | h <;> linarith
  have heq : w.normalize_weights.total = 1 := by
    unfold ScoringWeights.normalize_weights
    simp only [htot, if_pos]
    unfold ScoringWeights.total at htot ⊢
    field_simp
  exact ⟨heq, by rw [heq]; norm_num⟩

/-- C4 witness: the default weight vector `(0.3, 0.25, 0.2, 0.15, 0.1)`
of `app/config.py` normalizes to sum exactly `1`. -/
theorem normalize_weights_sums_to_one_witness :
    (ScoringWeights.mk (3/10) (1/4) (1/5) (3/20) (1/10)).normalize_weights.total
        = 1 ∧
      |(ScoringWeights.mk (3/10) (1/4) (1/5) (3/20)
          (1/10)).normalize_weights.total - 1| ≤ 1 / 1000000000 :=
  normalize_weights_sums_to_one _ (by norm_num) (by norm_num) (by norm_num)
    (by norm_num) (by norm_num) (Or.inl (by norm_num))

/-- C10: on the all-zero weight vector the sum is not positive, so
`normalize_weights` takes the `else` branch, performs no division and
returns the vector unchanged. -/
theorem normalize_weights_all_zero_unchanged (w : ScoringWeights)
    (h1 : w.w1_frequency = 0) (h2 : w.w2_tfidf = 0)
    (h3 : w.w3_cooccurrence = 0) (h4 : w.w4_position_title = 0)
    (h5 : w.w5_similarity_brand = 0) :
    w.normalize_weights = w := by
  have htot : ¬ (0 : ℚ) < w.total := by
    unfold ScoringWeights.total
    rw [h1, h2, h3, h4, h5]
    norm_num
  unfold ScoringWeights.normalize_weights
  simp only [htot, if_neg, if_false]

/-- C10 witness: the zero weight vector is returned unchanged. -/
theorem normalize_weights_all_zero_unchanged_witness :
    (ScoringWeights.mk 0 0 0 0 0).normalize_weights =
      ScoringWeights.mk 0 0 0 0 0 :=
  normalize_weights_all_zero_unchanged _ rfl rfl rfl rfl rfl

theorem mem_insertWith {α : Type} (ge : α → α → Bool) (a x : α) (l : List α) :
    x ∈ insertWith ge a l ↔ x = a ∨ x ∈ l := by
  induction l with
  | nil => simp [insertWith]
  | cons b bs ih =>
    rw [insertWith]
    by_cases h : ge a b = true
    · simp [h]
    · simp only [Bool.not_eq_true] at h
      simp only [h, Bool.false_eq_true, if_neg, not_false_iff, List.mem_cons, ih]
      tauto

theorem mem_sortWith {α : Type} (ge : α → α → Bool) (x : α) (l : List α) :
    x ∈ sortWith ge l ↔ x ∈ l := by
  induction l with
  | nil => simp [sortWith]
  | cons a as ih =>
    rw [sortWith, mem_insertWith]
    simp [ih, eq_comm]

theorem length_insertWith {α : Type} (ge : α → α → Bool) (a : α) (l : List α) :
    (insertWith ge a l).length = l.length + 1 := by
  induction l with
  | nil => rfl
  | cons b bs ih =>
    rw [insertWith]
    by_cases h : ge a b = true
    · simp [h]
    · simp only [Bool.not_eq_true] at h
      simp [h, ih]

theorem length_sortWith {α : Type} (ge : α → α → Bool) (l : List α) :
    (sortWith ge l).length = l.length := by
  induction l with
  | nil => rfl
  | cons a as ih =>
    rw [sortWith, length_insertWith, ih, List.length_cons]

theorem mem_postBucket (ge : ScoredKeyword → ScoredKeyword → Bool)
    (p : ScoredKeyword → Bool) (keywords : List ScoredKeyword)
    (x : ScoredKeyword)
    (hx : x ∈ (sortWith ge (keywords.filter p)).take 30) :
    x ∈ keywords ∧ p x = true := by
  have h1 := List.mem_of_mem_take hx
  rw [mem_sortWith] at h1
  exact List.mem_filter.mp h1

theorem mem_postBucket_of (ge : ScoredKeyword → ScoredKeyword → Bool)
    (p : ScoredKeyword → Bool) (keywords : List ScoredKeyword)
    (x : ScoredKeyword) (hflen : (keywords.filter p).length ≤ 30)
    (hx : x ∈ keywords) (hp : p x = true) :
    x ∈ (sortWith ge (keywords.filter p)).take 30 := by
  have hslen : (sortWith ge (keywords.filter p)).length ≤ 30 := by
    rw [length_sortWith]; exact hflen
  rw [List.take_of_length_le hslen, mem_sortWith]
  exact List.mem_filter.mpr ⟨hx, hp⟩

theorem classify_score_irrelevant (k : String) (s1 s2 : ℚ) (p : String)
    (br : BrandInfo) (dk : Option (List (String × ℚ))) :
    classify_keyword_bucket k s1 p br dk = classify_keyword_bucket k s2 p br dk :=
  rfl

theorem dedupInner_mono (n : ℕ) (simF : ℕ → ℕ → ℚ) (scoreF : ℕ → ℚ) (t : ℚ)
    (i j : ℕ) (R : List ℕ) (x : ℕ) (hx : x ∈ R) :
    x ∈ dedupInner n simF scoreF t i j R := by
  induction j, R using dedupInner.induct n simF scoreF t i with
  | case1 j R hj hmem ih =>
    rw [dedupInner]
    simp only [hj, dif_pos, hmem, if_pos]
    exact ih hx
  | case2 j R hj hmem hsim hsc ih =>
    rw [dedupInner]
    simp only [hj, dif_pos, hmem, if_neg, hsim, if_pos, hsc]
    exact ih (List.mem_cons_of_mem _ hx)
  | case3 j R hj hmem hsim hsc =>
    rw [dedupInner]
    simp only [hj, dif_pos, hmem, if_neg, hsim, if_pos, hsc]
    exact List.mem_cons_of_mem _ hx
  | case4 j R hj hmem hsim ih =>
    rw [dedupInner]
    simp only [hj, dif_pos, hmem, if_neg, hsim]
    exact ih hx
  | case5 j R hj =>
    rw [dedupInner]
    simp only [hj, dif_neg]
    exact hx

theorem dedupOuter_mono (n : ℕ) (simF : ℕ → ℕ → ℚ) (scoreF : ℕ → ℚ) (t : ℚ)
    (i : ℕ) (R : List ℕ) (x : ℕ) (hx : x ∈ R) :
    x ∈ dedupOuter n simF scoreF t i R := by
  induction i, R using dedupOuter.induct n simF scoreF t with
  | case1 i R hi hmem ih =>
    rw [dedupOuter]
    simp only [hi, dif_pos, hmem, if_pos]
    exact ih hx
  | case2 i R hi hmem ih =>
    rw [dedupOuter]
    simp only [hi, dif_pos, hmem, if_neg]
    exact ih (dedupInner_mono n simF scoreF t i (i + 1) R x hx)
  | case3 i R hi =>
    rw [dedupOuter]
    simp only [hi, dif_neg]
    exact hx

theorem dedupInner_spec (n : ℕ) (simF : ℕ → ℕ → ℚ) (scoreF : ℕ → ℚ) (t : ℚ)
    (i j : ℕ) (R : List ℕ)
    (hni : i ∉ dedupInner n simF scoreF t i j R) :
    ∀ j', j ≤ j' → j' < n →
      j' ∈ dedupInner n simF scoreF t i j R ∨ simF i j' ≤ t := by
  induction j, R using dedupInner.induct n simF scoreF t i with
  | case1 j R hj hmem ih =>
    rw [dedupInner] at hni ⊢
    simp only [hj, dif_pos, hmem, if_pos] at hni ⊢
    intro j' hle hlt
    rcases Nat.eq_or_lt_of_le hle with rfl | hlt'
    · exact Or.inl (dedupInner_mono n simF scoreF t i (j + 1) R j hmem)
    · exact ih hni j' hlt' hlt
  | case2 j R hj hmem hsim hsc ih =>
    rw [dedupInner] at hni ⊢
    simp only [hj, dif_pos, hmem, if_neg, hsim, if_pos, hsc] at hni ⊢
    intro j' hle hlt
    rcases Nat.eq_or_lt_of_le hle with rfl | hlt'
    · exact Or.inl (dedupInner_mono n simF scoreF t i (j + 1) (j :: R) j
        (List.mem_cons_self j R))
    · exact ih hni j' hlt' hlt
  | case3 j R hj hmem hsim hsc =>
    rw [dedupInner] at hni
    simp only [hj, dif_pos, hmem, if_neg, hsim, if_pos, hsc] at hni
    exact absurd (List.mem_cons_self i R) hni
  | case4 j R hj hmem hsim ih =>
    rw [dedupInner] at hni ⊢
    simp only [hj, dif_pos, hmem, if_neg, hsim] at hni ⊢
    intro j' hle hlt
    rcases Nat.eq_or_lt_of_le hle with rfl | hlt'
    · exact Or.inr (le_of_not_lt hsim)
    · exact ih hni j' hlt' hlt
  | case5 j R hj =>
    intro j' hle hlt
    exact absurd (lt_of_le_of_lt hle hlt) hj

theorem dedupOuter_spec (n : ℕ) (simF : ℕ → ℕ → ℚ) (scoreF : ℕ → ℚ) (t : ℚ)
    (i0 : ℕ) (R : List ℕ) :
    ∀ i j, i0 ≤ i → i < j → j < n →
      i ∉ dedupOuter n simF scoreF t i0 R →
      j ∉ dedupOuter n simF scoreF t i0 R →
      simF i j ≤ t := by
  induction i0, R using dedupOuter.induct n simF scoreF t with
  | case1 i0 R hi0 hmem ih =>
    intro i j hle hij hj hni hnj
    rw [dedupOuter] at hni hnj
    simp only [hi0, dif_pos, hmem, if_pos] at hni hnj
    rcases Nat.eq_or_lt_of_le hle with rfl | hlt'
    · exact absurd (dedupOuter_mono n simF scoreF t (i0 + 1) R i0 hmem) hni
    · exact ih i j hlt' hij hj hni hnj
  | case2 i0 R hi0 hmem ih =>
    intro i j hle hij hj hni hnj
    rw [dedupOuter] at hni hnj
    simp only [hi0, dif_pos, hmem, if_neg] at hni hnj
    rcases Nat.eq_or_lt_of_le hle with rfl | hlt'
    · -- row i0 was processed in full by the inner loop
      have hiR1 : i0 ∉ dedupInner n simF scoreF t i0 (i0 + 1) R := fun hmem1 =>
        hni (dedupOuter_mono n simF scoreF t (i0 + 1) _ i0 hmem1)
      rcases dedupInner_spec n simF scoreF t i0 (i0 + 1) R hiR1 j hij hj with hjR1 | hsim
      · exact absurd (dedupOuter_mono n simF scoreF t (i0 + 1) _ j hjR1) hnj
      · exact hsim
    · exact ih i j hlt' hij hj hni hnj
  | case3 i0 R hi0 =>
    intro i j hle hij hj _ _
    exact absurd (lt_of_le_of_lt (le_of_lt (lt_of_le_of_lt hle hij)) hj) hi0

theorem filterByIndex_mem (R : List ℕ) (i0 : ℕ) (l : List RawKeyword)
    (b : RawKeyword) (hb : b ∈ filterByIndex R i0 l) :
    ∃ k, ∃ h : k < l.length, l.get ⟨k, h⟩ = b ∧ (i0 + k) ∉ R := by
  induction l generalizing i0 with
  | nil => simp [filterByIndex] at hb
  | cons a as ih =>
    rw [filterByIndex] at hb
    by_cases hmem : i0 ∈ R
    · simp only [hmem, if_pos] at hb
      obtain ⟨k, hk, hget, hnot⟩ := ih (i0 + 1) hb
      exact ⟨k + 1, Nat.succ_lt_succ hk, hget, by
        have : i0 + 1 + k = i0 + (k + 1) := by omega
        rw [← this]; exact hnot⟩
    · simp only [hmem, if_neg, not_false_iff, List.mem_cons] at hb
      rcases hb with rfl | hb
      · exact ⟨0, Nat.succ_pos _, rfl, by simpa using hmem⟩
      · obtain ⟨k, hk, hget, hnot⟩ := ih (i0 + 1) hb
        exact ⟨k + 1, Nat.succ_lt_succ hk, hget, by
          have : i0 + 1 + k = i0 + (k + 1) := by omega
          rw [← this]; exact hnot⟩

theorem filterByIndex_pairwise (R : List ℕ) (Q : RawKeyword → RawKeyword → Prop)
    (i0 : ℕ) (l : List RawKeyword)
    (H : ∀ di dj, ∀ hdi : di < l.length, ∀ hdj : dj < l.length, di < dj →
      (i0 + di) ∉ R → (i0 + dj) ∉ R → Q (l.get ⟨di, hdi⟩) (l.get ⟨dj, hdj⟩)) :
    (filterByIndex R i0 l).Pairwise Q := by
  induction l generalizing i0 with
  | nil => exact List.Pairwise.nil
  | cons a as ih =>
    rw [filterByIndex]
    by_cases hmem : i0 ∈ R
    · simp only [hmem, if_pos]
      refine ih (i0 + 1) ?_
      intro di dj hdi hdj hlt hni hnj
      have h1 : i0 + 1 + di = i0 + (di + 1) := by omega
      have h2 : i0 + 1 + dj = i0 + (dj + 1) := by omega
      rw [h1] at hni; rw [h2] at hnj
      exact H (di + 1) (dj + 1) (Nat.succ_lt_succ hdi) (Nat.succ_lt_succ hdj)
        (Nat.succ_lt_succ hlt) hni hnj
    · simp only [hmem, if_neg, not_false_iff]
      refine List.Pairwise.cons ?_ (ih (i0 + 1) ?_)
      · intro b hb
        obtain ⟨k, hk, hget, hnot⟩ := filterByIndex_mem R (i0 + 1) as b hb
        have h1 : i0 + 1 + k = i0 + (k + 1) := by omega
        rw [h1] at hnot
        have hQ := H 0 (k + 1) (Nat.succ_pos _) (Nat.succ_lt_succ hk)
          (Nat.succ_pos _) (by simpa using hmem) hnot
        rw [← hget]
        simpa using hQ
      · intro di dj hdi hdj hlt hni hnj
        have h1 : i0 + 1 + di = i0 + (di + 1) := by omega
        have h2 : i0 + 1 + dj = i0 + (dj + 1) := by omega
        rw [h1] at hni; rw [h2] at hnj
        exact H (di + 1) (dj + 1) (Nat.succ_lt_succ hdi) (Nat.succ_lt_succ hdj)
          (Nat.succ_lt_succ hlt) hni hnj

theorem dedupInner_noop (n : ℕ) (simF : ℕ → ℕ → ℚ) (scoreF : ℕ → ℚ) (t : ℚ)
    (i j : ℕ) (R : List ℕ)
    (H : ∀ j', j ≤ j' → j' < n → simF i j' ≤ t) :
    dedupInner n simF scoreF t i j R = R := by
  induction j, R using dedupInner.induct n simF scoreF t i with
  | case1 j R hj hmem ih =>
    rw [dedupInner]
    simp only [hj, dif_pos, hmem, if_pos]
    exact ih fun j' h1 h2 => H j' (le_of_lt h1) h2
  | case2 j R hj hmem hsim hsc ih =>
    exact absurd (H j le_rfl hj) (not_le_of_lt hsim)
  | case3 j R hj hmem hsim hsc =>
    exact absurd (H j le_rfl hj) (not_le_of_lt hsim)
  | case4 j R hj hmem hsim ih =>
    rw [dedupInner]
    simp only [hj, dif_pos, hmem, if_neg, hsim, not_false_iff]
    exact ih fun j' h1 h2 => H j' (le_of_lt h1) h2
  | case5 j R hj =>
    rw [dedupInner]
    simp only [hj, dif_neg, not_false_iff]

theorem dedupOuter_noop (n : ℕ) (simF : ℕ → ℕ → ℚ) (scoreF : ℕ → ℚ) (t : ℚ)
    (i0 : ℕ) (R : List ℕ)
    (H : ∀ i j, i < j → j < n → simF i j ≤ t) (hR : R = []) :
    dedupOuter n simF scoreF t i0 R = [] := by
  induction i0, R using dedupOuter.induct n simF scoreF t with
  | case1 i0 R hi0 hmem ih =>
    subst hR; simp at hmem
  | case2 i0 R hi0 hmem ih =>
    subst hR
    rw [dedupOuter]
    simp only [hi0, dif_pos, List.not_mem_nil, if_neg, not_false_iff]
    have hinner : dedupInner n simF scoreF t i0 (i0 + 1) [] = [] :=
      dedupInner_noop n simF scoreF t i0 (i0 + 1) []
        (fun j' h1 h2 => H i0 j' (Nat.lt_of_succ_le h1) h2)
    rw [hinner] at ih ⊢
    exact ih rfl
  | case3 i0 R hi0 =>
    subst hR
    rw [dedupOuter]
    simp only [hi0, dif_neg, not_false_iff]

theorem filterByIndex_nil (i0 : ℕ) (l : List RawKeyword) :
    filterByIndex [] i0 l = l := by
  induction l generalizing i0 with
  | nil => rfl
  | cons a as ih =>
    rw [filterByIndex]
    simp only [List.not_mem_nil, if_neg, not_false_iff]
    rw [ih]

theorem dedup_pairwise_below_threshold (sim : String → String → ℚ) (t : ℚ)
    (keywords : List RawKeyword) :
    (deduplicate_by_similarity sim t keywords).Pairwise
      (fun a b => sim a.term b.term ≤ t) := by
  unfold deduplicate_by_similarity
  by_cases hlen : keywords.length ≤ 1
  · simp only [hlen, if_pos]
    match keywords, hlen with
    | [], _ => exact List.Pairwise.nil
    | [a], _ => exact List.pairwise_singleton _ a
  · simp only [hlen, if_neg, not_false_iff]
    refine filterByIndex_pairwise _ _ 0 keywords ?_
    intro di dj hdi hdj hlt hni hnj
    simp only [Nat.zero_add] at hni hnj
    have hspec := dedupOuter_spec keywords.length
      (fun i j => sim (termAt keywords i) (termAt keywords j))
      (scoreAt keywords) t 0 [] di dj (Nat.zero_le _) hlt hdj hni hnj
    have h1 : termAt keywords di = (keywords.get ⟨di, hdi⟩).term := by
      unfold termAt
      rw [List.getD_eq_getElem _ _ hdi]
      simp [List.get_eq_getElem]
    have h2 : termAt keywords dj = (keywords.get ⟨dj, hdj⟩).term := by
      unfold termAt
      rw [List.getD_eq_getElem _ _ hdj]
      simp [List.get_eq_getElem]
    simpa only [h1, h2] using hspec

theorem dedup_of_pairwise (sim : String → String → ℚ) (t : ℚ)
    (keywords : List RawKeyword)
    (H : keywords.Pairwise (fun a b => sim a.term b.term ≤ t)) :
    deduplicate_by_similarity sim t keywords = keywords := by
  unfold deduplicate_by_similarity
  by_cases hlen : keywords.length ≤ 1
  · simp only [hlen, if_pos]
  · simp only [hlen, if_neg, not_false_iff]
    have hidx := List.pairwise_iff_get.mp H
    have hrem : removedIndices sim t keywords = [] := by
      unfold removedIndices
      refine dedupOuter_noop _ _ _ _ _ _ ?_ rfl
      intro i j hij hj
      have hi : i < keywords.length := lt_trans hij hj
      have h1 : termAt keywords i = (keywords.get ⟨i, hi⟩).term := by
        unfold termAt
        rw [List.getD_eq_getElem _ _ hi]
        simp [List.get_eq_getElem]
      have h2 : termAt keywords j = (keywords.get ⟨j, hj⟩).term := by
        unfold termAt
        rw [List.getD_eq_getElem _ _ hj]
        simp [List.get_eq_getElem]
      rw [h1, h2]
      exact hidx ⟨i, hi⟩ ⟨j, hj⟩ hij
    rw [hrem]
    exact filterByIndex_nil 0 keywords

/-- C2: semantic deduplication is idempotent.  For every similarity
function over terms, every threshold and every candidate list, applying
`_deduplicate_by_similarity` to its own output returns that output
unchanged: all surviving pairs are at or below the threshold, so the
second pass removes nothing. -/
theorem deduplicate_by_similarity_idempotent (sim : String → String → ℚ)
    (t : ℚ) (keywords : List RawKeyword) :
    deduplicate_by_similarity sim t (deduplicate_by_similarity sim t keywords) =
      deduplicate_by_similarity sim t keywords :=
  dedup_of_pairwise sim t _ (dedup_pairwise_below_threshold sim t keywords)

/-- C9: keyword extraction on a text that is empty or shorter than 50
characters after stripping whitespace returns the empty list, whatever
the providers would have produced. -/
theorem extract_keywords_short_text (text : String)
    (yake_results keybert_results : List RawKeyword)
    (sim : String → String → ℚ) (t : ℚ) (max_keywords : ℕ)
    (h : (pyStrip text).length < 50) :
    extract_keywords text yake_results keybert_results sim t max_keywords = [] := by
  unfold extract_keywords
  simp only [h, if_pos]

/-- C9 witness: a short text with a nonempty provider result still
yields the empty list. -/
theorem extract_keywords_short_text_witness :
    (pyStrip "  hola mundo  ").length < 50 ∧
      extract_keywords "  hola mundo  " [⟨"laptop", 1/2, "yake"⟩]
        [⟨"laptop gamer", 3/5, "keybert"⟩] (fun _ _ => 0) (17/20) 50 = [] :=
  ⟨by decide, extract_keywords_short_text _ _ _ _ _ _ (by decide)⟩

/-- C3: for every weight vector and every combination of sub-score
results the final keyword score lies in `[0, 1]`, and a failed sub-score
computation contributes exactly what a computed `0` would contribute, for
each of the five factors, instead of aborting the calculation. -/
theorem calculate_keyword_score_in_unit_interval
    (w : ScoringWeights) (freq tfidf cooc pos sim : SubScore) :
    (0 ≤ calculate_keyword_score w freq tfidf cooc pos sim ∧
      calculate_keyword_score w freq tfidf cooc pos sim ≤ 1) ∧
    calculate_keyword_score w .failed tfidf cooc pos sim =
      calculate_keyword_score w (.ok 0) tfidf cooc pos sim ∧
    calculate_keyword_score w freq .failed cooc pos sim =
      calculate_keyword_score w freq (.ok 0) cooc pos sim ∧
    calculate_keyword_score w freq tfidf .failed pos sim =
      calculate_keyword_score w freq tfidf (.ok 0) pos sim ∧
    calculate_keyword_score w freq tfidf cooc .failed sim =
      calculate_keyword_score w freq tfidf cooc (.ok 0) sim ∧
    calculate_keyword_score w freq tfidf cooc pos .failed =
      calculate_keyword_score w freq tfidf cooc pos (.ok 0) := by
  refine ⟨⟨clamp01_nonneg _, clamp01_le_one _⟩, rfl, rfl, rfl, rfl, rfl⟩

/-- C1 (amended): for every input, the three buckets produced by
`bucketize_keywords` are pairwise disjoint on terms and every bucket
term comes from the input; and whenever at most 30 keywords are
classified into each bucket, the union of the buckets is exactly the set
of input keyword terms, so each input term appears in exactly one
bucket.  (Without that bound the per-bucket top-30 truncation of
`app/services/scorer.py` line 309 can drop input terms from all buckets;
see the counterexample.) -/
theorem bucketize_keywords_partition (keywords : List ScoredKeyword)
    (page_type : String) (brand : BrandInfo) (dk : Option (List (String × ℚ))) :
    (∀ s, s ∈ bucketTerms (bucketize_keywords keywords page_type brand dk).cliente →
      s ∉ bucketTerms (bucketize_keywords keywords page_type brand dk).producto_o_post) ∧
    (∀ s, s ∈ bucketTerms (bucketize_keywords keywords page_type brand dk).cliente →
      s ∉ bucketTerms (bucketize_keywords keywords page_type brand dk).generales_seo) ∧
    (∀ s, s ∈ bucketTerms (bucketize_keywords keywords page_type brand dk).producto_o_post →
      s ∉ bucketTerms (bucketize_keywords keywords page_type brand dk).generales_seo) ∧
    (∀ s, (s ∈ bucketTerms (bucketize_keywords keywords page_type brand dk).cliente ∨
        s ∈ bucketTerms (bucketize_keywords keywords page_type brand dk).producto_o_post ∨
        s ∈ bucketTerms (bucketize_keywords keywords page_type brand dk).generales_seo) →
      s ∈ keywords.map ScoredKeyword.term) ∧
    ((∀ b, classifiedCount keywords page_type brand dk b ≤ 30) →
      ∀ s, (s ∈ bucketTerms (bucketize_keywords keywords page_type brand dk).cliente ∨
        s ∈ bucketTerms (bucketize_keywords keywords page_type brand dk).producto_o_post ∨
        s ∈ bucketTerms (bucketize_keywords keywords page_type brand dk).generales_seo) ↔
      s ∈ keywords.map ScoredKeyword.term) := by
  have hmem : ∀ (b : Bucket) (s : String),
      s ∈ bucketTerms ((fun l => (sortWith (fun a b : ScoredKeyword =>
          decide (b.score ≤ a.score)) l).take 30)
        (keywords.filter fun kd =>
          decide (classify_keyword_bucket kd.term kd.score page_type brand dk = b))) →
      ∃ kd, kd ∈ keywords ∧ kd.term = s ∧
        classify_keyword_bucket kd.term kd.score page_type brand dk = b := by
    intro b s hs
    obtain ⟨kd, hkd, hterm⟩ := List.mem_map.mp hs
    obtain ⟨hin, hp⟩ := mem_postBucket _ _ _ _ hkd
    exact ⟨kd, hin, hterm, of_decide_eq_true hp⟩
  have hcls : ∀ (kd1 kd2 : ScoredKeyword), kd1.term = kd2.term →
      classify_keyword_bucket kd1.term kd1.score page_type brand dk =
        classify_keyword_bucket kd2.term kd2.score page_type brand dk := by
    intro kd1 kd2 hterm
    rw [hterm]
    exact classify_score_irrelevant kd2.term kd1.score kd2.score page_type brand dk
  have hdisj : ∀ (b1 b2 : Bucket), b1 ≠ b2 → ∀ s,
      s ∈ bucketTerms ((fun l => (sortWith (fun a b : ScoredKeyword =>
          decide (b.score ≤ a.score)) l).take 30)
        (keywords.filter fun kd =>
          decide (classify_keyword_bucket kd.term kd.score page_type brand dk = b1))) →
      s ∉ bucketTerms ((fun l => (sortWith (fun a b : ScoredKeyword =>
          decide (b.score ≤ a.score)) l).take 30)
        (keywords.filter fun kd =>
          decide (classify_keyword_bucket kd.term kd.score page_type brand dk = b2))) := by
    intro b1 b2 hne s h1 h2
    obtain ⟨kd1, _, ht1, hc1⟩ := hmem b1 s h1
    obtain ⟨kd2, _, ht2, hc2⟩ := hmem b2 s h2
    exact hne ((hc1.symm.trans (hcls kd1 kd2 (ht1.trans ht2.symm))).trans hc2)
  have hsub : ∀ s,
      (s ∈ bucketTerms (bucketize_keywords keywords page_type brand dk).cliente ∨
        s ∈ bucketTerms (bucketize_keywords keywords page_type brand dk).producto_o_post ∨
        s ∈ bucketTerms (bucketize_keywords keywords page_type brand dk).generales_seo) →
      s ∈ keywords.map ScoredKeyword.term := by
    intro s
    rintro (h | h | h) <;>
      · obtain ⟨kd, hin, hterm, _⟩ := hmem _ s h
        exact List.mem_map.mpr ⟨kd, hin, hterm⟩
  refine ⟨hdisj .cliente .producto_o_post (by decide),
    hdisj .cliente .generales_seo (by decide),
    hdisj .producto_o_post .generales_seo (by decide), hsub, ?_⟩
  intro hfit s
  constructor
  · exact hsub s
  · intro hs
    obtain ⟨kd, hin, hterm⟩ := List.mem_map.mp hs
    have hcover : ∀ (b : Bucket),
        classify_keyword_bucket kd.term kd.score page_type brand dk = b →
        s ∈ bucketTerms ((fun l => (sortWith (fun a b : ScoredKeyword =>
            decide (b.score ≤ a.score)) l).take 30)
          (keywords.filter fun kd =>
            decide (classify_keyword_bucket kd.term kd.score page_type brand dk = b))) := by
      intro b hb
      exact List.mem_map.mpr ⟨kd,
        mem_postBucket_of _ _ _ _ (hfit b) hin (decide_eq_true hb), hterm⟩
    cases hcb : classify_keyword_bucket kd.term kd.score page_type brand dk with
    | cliente => exact Or.inl (hcover _ hcb)
    | producto_o_post => exact Or.inr (Or.inl (hcover _ hcb))
    | generales_seo => exact Or.inr (Or.inr (hcover _ hcb))

/-- C1 witness: two keywords on an e-commerce page of brand `acme` split
into the `cliente` and `producto_o_post` buckets, each bucket receives
at most 30 keywords, and the buckets disjointly cover the input terms. -/
theorem bucketize_keywords_partition_witness :
    (∀ b, classifiedCount [(⟨"precio bajo", 9/10⟩ : ScoredKeyword), ⟨"acme", 4/5⟩]
        "ecommerce" ⟨"acme", "acme.com"⟩ none b ≤ 30) ∧
    (∀ s, s ∈ bucketTerms (bucketize_keywords
        [⟨"precio bajo", 9/10⟩, ⟨"acme", 4/5⟩] "ecommerce" ⟨"acme", "acme.com"⟩ none).cliente →
      s ∉ bucketTerms (bucketize_keywords
        [⟨"precio bajo", 9/10⟩, ⟨"acme", 4/5⟩] "ecommerce" ⟨"acme", "acme.com"⟩ none).producto_o_post) ∧
    (∀ s, (s ∈ bucketTerms (bucketize_keywords
        [⟨"precio bajo", 9/10⟩, ⟨"acme", 4/5⟩] "ecommerce" ⟨"acme", "acme.com"⟩ none).cliente ∨
        s ∈ bucketTerms (bucketize_keywords
        [⟨"precio bajo", 9/10⟩, ⟨"acme", 4/5⟩] "ecommerce" ⟨"acme", "acme.com"⟩ none).producto_o_post ∨
        s ∈ bucketTerms (bucketize_keywords
        [⟨"precio bajo", 9/10⟩, ⟨"acme", 4/5⟩] "ecommerce" ⟨"acme", "acme.com"⟩ none).generales_seo) ↔
      s ∈ ([(⟨"precio bajo", 9/10⟩ : ScoredKeyword), ⟨"acme", 4/5⟩] : List ScoredKeyword).map
        ScoredKeyword.term) := by
  have h := bucketize_keywords_partition
    [⟨"precio bajo", 9/10⟩, ⟨"acme", 4/5⟩] "ecommerce" ⟨"acme", "acme.com"⟩ none
  exact ⟨fun b => by cases b <;> decide, h.1,
    h.2.2.2.2 (fun b => by cases b <;> decide)⟩

/-- C1 counterexample: with 31 keywords all classified into the same
bucket, the top-30 truncation drops one input term from every bucket, so
the union of the buckets is strictly smaller than the deduplicated input
term set and the claim as stated fails. -/
theorem bucketize_keywords_truncation_counterexample :
    "k30" ∈ (((List.range 31).map fun i =>
        (⟨"k" ++ toString i, 1/2⟩ : ScoredKeyword)).map ScoredKeyword.term) ∧
    "k30" ∉ bucketTerms (bucketize_keywords ((List.range 31).map fun i =>
        (⟨"k" ++ toString i, 1/2⟩ : ScoredKeyword)) "mixto" ⟨"", ""⟩ none).cliente ∧
    "k30" ∉ bucketTerms (bucketize_keywords ((List.range 31).map fun i =>
        (⟨"k" ++ toString i, 1/2⟩ : ScoredKeyword)) "mixto" ⟨"", ""⟩ none).producto_o_post ∧
    "k30" ∉ bucketTerms (bucketize_keywords ((List.range 31).map fun i =>
        (⟨"k" ++ toString i, 1/2⟩ : ScoredKeyword)) "mixto" ⟨"", ""⟩ none).generales_seo := by
  decide

theorem fetchGo_attempts_le (outcomes : ℕ → FetchOutcome) (retries : ℕ) :
    ∀ a, a ≤ retries + 1 → (fetchGo outcomes retries a).attempts ≤ retries + 1 := by
  intro a
  induction a using fetchGo.induct outcomes retries with
  | case1 x hx r hout =>
    intro _
    rw [fetchGo]
    simp only [hx, dif_pos, hout]
    omega
  | case2 x hx c hout hc =>
    intro _
    rw [fetchGo]
    simp only [hx, dif_pos, hout, hc, if_pos]
    omega
  | case3 x hx c hout hc hlt ih =>
    intro _
    rw [fetchGo]
    simp only [hx, dif_pos, hout, hc, if_neg, hlt, if_pos]
    exact ih (by omega)
  | case4 x hx c hout hc hge =>
    intro _
    rw [fetchGo]
    simp [hx, hout, hc, hge]
  | case5 x hx hout hlt ih =>
    intro _
    rw [fetchGo]
    simp only [hx, dif_pos, hout, hlt, if_pos]
    exact ih (by omega)
  | case6 x hx hout hge =>
    intro _
    rw [fetchGo]
    simp [hx, hout, hge]
  | case7 x hx hout hlt ih =>
    intro _
    rw [fetchGo]
    simp only [hx, dif_pos, hout, hlt, if_pos]
    exact ih (by omega)
  | case8 x hx hout hge =>
    intro _
    rw [fetchGo]
    simp [hx, hout, hge]
  | case9 x hx =>
    intro hle
    rw [fetchGo, dif_neg hx]
    exact hle

theorem fetchGo_waits_spec (outcomes : ℕ → FetchOutcome) (retries : ℕ) :
    ∀ a, (fetchGo outcomes retries a).waits =
      (List.range (fetchGo outcomes retries a).waits.length).map fun i => 2 ^ (a + i) := by
  intro a
  induction a using fetchGo.induct outcomes retries with
  | case1 x hx r hout =>
    rw [fetchGo]
    simp [hx, hout]
  | case2 x hx c hout hc =>
    rw [fetchGo]
    simp [hx, hout, hc]
  | case3 x hx c hout hc hlt ih =>
    rw [fetchGo]
    simp only [hx, dif_pos, hout, hc, Bool.false_eq_true, if_false, hlt, if_pos]
    rw [List.length_cons, List.range_succ_eq_map, List.map_cons, List.map_map]
    refine List.cons_eq_cons.mpr ⟨?_, ?_⟩
    · simp
    · conv_lhs => rw [ih]
      apply List.map_congr_left
      intro i _
      simp only [Function.comp]
      congr 1
      omega
  | case4 x hx c hout hc hge =>
    rw [fetchGo]
    simp [hx, hout, hc, hge]
  | case5 x hx hout hlt ih =>
    rw [fetchGo]
    simp only [hx, dif_pos, hout, hlt, if_pos]
    rw [List.length_cons, List.range_succ_eq_map, List.map_cons, List.map_map]
    refine List.cons_eq_cons.mpr ⟨?_, ?_⟩
    · simp
    · conv_lhs => rw [ih]
      apply List.map_congr_left
      intro i _
      simp only [Function.comp]
      congr 1
      omega
  | case6 x hx hout hge =>
    rw [fetchGo]
    simp [hx, hout, hge]
  | case7 x hx hout hlt ih =>
    rw [fetchGo]
    simp only [hx, dif_pos, hout, hlt, if_pos]
    rw [List.length_cons, List.range_succ_eq_map, List.map_cons, List.map_map]
    refine List.cons_eq_cons.mpr ⟨?_, ?_⟩
    · simp
    · conv_lhs => rw [ih]
      apply List.map_congr_left
      intro i _
      simp only [Function.comp]
      congr 1
      omega
  | case8 x hx hout hge =>
    rw [fetchGo]
    simp [hx, hout, hge]
  | case9 x hx =>
    rw [fetchGo, dif_neg hx]
    simp

theorem fetchGo_terminal (outcomes : ℕ → FetchOutcome) (retries : ℕ) :
    ∀ a, ∀ j c, a ≤ j → j ≤ retries →
      outcomes j = .httpStatus c → (c == 404 || c == 403 || c == 401) = true →
      (∀ k, a ≤ k → k < j → (outcomes k).retryable = true) →
      (fetchGo outcomes retries a).result = none ∧
        (fetchGo outcomes retries a).attempts = j + 1 := by
  intro a
  induction a using fetchGo.induct outcomes retries with
  | case1 x hx r hout =>
    intro j c haj hj houtj hc hpre
    rcases Nat.eq_or_lt_of_le haj with rfl | hxj
    · rw [hout] at houtj; exact absurd houtj (by simp)
    · have := hpre x le_rfl hxj
      rw [hout] at this
      exact absurd this (by simp [FetchOutcome.retryable])
  | case2 x hx c0 hout hc0 =>
    intro j c haj hj houtj hc hpre
    rcases Nat.eq_or_lt_of_le haj with rfl | hxj
    · rw [fetchGo]
      simp [hx, hout, hc0]
    · have := hpre x le_rfl hxj
      rw [hout] at this
      simp only [FetchOutcome.retryable, hc0, Bool.not_true] at this
      exact absurd this (by simp)
  | case3 x hx c0 hout hc0 hlt ih =>
    intro j c haj hj houtj hc hpre
    rcases Nat.eq_or_lt_of_le haj with rfl | hxj
    · rw [hout] at houtj
      cases houtj
      exact absurd hc hc0
    · rw [fetchGo]
      simp only [hx, dif_pos, hout, hc0, Bool.false_eq_true, if_false, hlt, if_pos]
      exact ih j c hxj hj houtj hc fun k hk1 hk2 => hpre k (by omega) hk2
  | case4 x hx c0 hout hc0 hge =>
    intro j c haj hj houtj hc hpre
    rcases Nat.eq_or_lt_of_le haj with rfl | hxj
    · rw [hout] at houtj
      cases houtj
      exact absurd hc hc0
    · omega
  | case5 x hx hout hlt ih =>
    intro j c haj hj houtj hc hpre
    rcases Nat.eq_or_lt_of_le haj with rfl | hxj
    · rw [hout] at houtj; exact absurd houtj (by simp)
    · rw [fetchGo]
      simp only [hx, dif_pos, hout, hlt, if_pos]
      exact ih j c hxj hj houtj hc fun k hk1 hk2 => hpre k (by omega) hk2
  | case6 x hx hout hge =>
    intro j c haj hj houtj hc hpre
    rcases Nat.eq_or_lt_of_le haj with rfl | hxj
    · rw [hout] at houtj; exact absurd houtj (by simp)
    · omega
  | case7 x hx hout hlt ih =>
    intro j c haj hj houtj hc hpre
    rcases Nat.eq_or_lt_of_le haj with rfl | hxj
    · rw [hout] at houtj; exact absurd houtj (by simp)
    · rw [fetchGo]
      simp only [hx, dif_pos, hout, hlt, if_pos]
      exact ih j c hxj hj houtj hc fun k hk1 hk2 => hpre k (by omega) hk2
  | case8 x hx hout hge =>
    intro j c haj hj houtj hc hpre
    rcases Nat.eq_or_lt_of_le haj with rfl | hxj
    · rw [hout] at houtj; exact absurd houtj (by simp)
    · omega
  | case9 x hx =>
    intro j c haj hj houtj hc hpre
    omega

theorem fetchGo_all_fail (outcomes : ℕ → FetchOutcome) (retries : ℕ) :
    ∀ a, (∀ k, a ≤ k → k ≤ retries → (outcomes k).isSuccess = false) →
      (fetchGo outcomes retries a).result = none := by
  intro a
  induction a using fetchGo.induct outcomes retries with
  | case1 x hx r hout =>
    intro h
    have := h x le_rfl hx
    rw [hout] at this
    exact absurd this (by simp [FetchOutcome.isSuccess])
  | case2 x hx c hout hc =>
    intro h
    rw [fetchGo]
    simp [hx, hout, hc]
  | case3 x hx c hout hc hlt ih =>
    intro h
    rw [fetchGo]
    simp only [hx, dif_pos, hout, hc, Bool.false_eq_true, if_false, hlt, if_pos]
    exact ih fun k hk1 hk2 => h k (by omega) hk2
  | case4 x hx c hout hc hge =>
    intro h
    rw [fetchGo]
    simp [hx, hout, hc, hge]
  | case5 x hx hout hlt ih =>
    intro h
    rw [fetchGo]
    simp only [hx, dif_pos, hout, hlt, if_pos]
    exact ih fun k hk1 hk2 => h k (by omega) hk2
  | case6 x hx hout hge =>
    intro h
    rw [fetchGo]
    simp [hx, hout, hge]
  | case7 x hx hout hlt ih =>
    intro h
    rw [fetchGo]
    simp only [hx, dif_pos, hout, hlt, if_pos]
    exact ih fun k hk1 hk2 => h k (by omega) hk2
  | case8 x hx hout hge =>
    intro h
    rw [fetchGo]
    simp [hx, hout, hge]
  | case9 x hx =>
    intro h
    rw [fetchGo, dif_neg hx]

/-- C7: the fetch loop performs at most `retries + 1` attempts; the
backoff waits slept between attempts are exactly `2 ** attempt` seconds
(1, 2, 4, ... in order); an HTTP 401/403/404 outcome at attempt `j`,
reached through retryable failures, stops the loop right there with
`None` after `j + 1` attempts; and when every attempt fails the call
returns `None` to the caller instead of raising. -/
theorem fetch_url_retry_contract (outcomes : ℕ → FetchOutcome) (retries : ℕ) :
    (fetch_url outcomes retries).attempts ≤ retries + 1 ∧
    ((fetch_url outcomes retries).waits =
      (List.range (fetch_url outcomes retries).waits.length).map fun i => 2 ^ i) ∧
    (∀ j c, j ≤ retries → outcomes j = .httpStatus c →
      (c = 401 ∨ c = 403 ∨ c = 404) →
      (∀ k, k < j → (outcomes k).retryable = true) →
      (fetch_url outcomes retries).result = none ∧
        (fetch_url outcomes retries).attempts = j + 1) ∧
    ((∀ k, k ≤ retries → (outcomes k).isSuccess = false) →
      (fetch_url outcomes retries).result = none) := by
  refine ⟨fetchGo_attempts_le outcomes retries 0 (by omega), ?_, ?_, ?_⟩
  · have h := fetchGo_waits_spec outcomes retries 0
    simpa using h
  · intro j c hj houtj hc hpre
    refine fetchGo_terminal outcomes retries 0 j c (Nat.zero_le j) hj houtj ?_
      fun k _ hk2 => hpre k hk2
    rcases hc with rfl | rfl | rfl <;> rfl
  · intro h
    exact fetchGo_all_fail outcomes retries 0 fun k _ hk2 => h k hk2

/-- C7 witness: a transport error on the first attempt followed by an
HTTP 404 aborts after exactly two attempts with `None`. -/
theorem fetch_url_retry_contract_witness :
    ((1 : ℕ) ≤ 3 ∧
      (fun k => if k = 0 then FetchOutcome.requestError
        else FetchOutcome.httpStatus 404) 1 = FetchOutcome.httpStatus 404) ∧
    (fetch_url (fun k => if k = 0 then FetchOutcome.requestError
        else FetchOutcome.httpStatus 404) 3).attempts ≤ 4 ∧
    (fetch_url (fun k => if k = 0 then FetchOutcome.requestError
        else FetchOutcome.httpStatus 404) 3).result = none ∧
    (fetch_url (fun k => if k = 0 then FetchOutcome.requestError
        else FetchOutcome.httpStatus 404) 3).attempts = 2 := by
  have h := fetch_url_retry_contract
    (fun k => if k = 0 then FetchOutcome.requestError else FetchOutcome.httpStatus 404) 3
  have hterm := h.2.2.1 1 404 (by decide) rfl (Or.inr (Or.inr rfl))
    (fun k hk => by
      have hk0 : k = 0 := by omega
      subst hk0
      rfl)
  exact ⟨⟨by decide, rfl⟩, h.1, hterm.1, hterm.2⟩

theorem select_by_categories_length_le (c : Categorized) (max_urls : ℕ) :
    (select_by_categories c max_urls).length ≤ max_urls := by
  simp only [select_by_categories]
  rw [List.length_take]
  exact min_le_left _ _

/-- C6: intelligent URL selection never returns more than `max_urls`
URLs, and whenever fewer than `max_urls` records pass the five-day
recency filter the filter is discarded: the full record list is the one
that is categorized and selected from. -/
theorem select_intelligent_urls_budget (urls : List URLRec) (max_urls : ℕ)
    (five_days_ago : ℤ) :
    (select_intelligent_urls urls max_urls five_days_ago).length ≤ max_urls ∧
    ((recent_urls urls five_days_ago).length < max_urls →
      select_intelligent_urls urls max_urls five_days_ago =
        select_by_categories (categorize_urls urls) max_urls) := by
  constructor
  · unfold select_intelligent_urls
    exact select_by_categories_length_le _ _
  · intro h
    simp only [select_intelligent_urls]
    rw [if_pos h]

/-- C6 witness: with one record lacking a date, zero records are recent,
the filter is discarded, and the selection stays within the budget. -/
theorem select_intelligent_urls_budget_witness :
    (recent_urls [⟨"https://x.example/p", none, 1/2, 1/2⟩] 0).length < 1 ∧
    (select_intelligent_urls [⟨"https://x.example/p", none, 1/2, 1/2⟩] 1 0).length ≤ 1 ∧
    select_intelligent_urls [⟨"https://x.example/p", none, 1/2, 1/2⟩] 1 0 =
      select_by_categories
        (categorize_urls [⟨"https://x.example/p", none, 1/2, 1/2⟩]) 1 := by
  have h := select_intelligent_urls_budget [⟨"https://x.example/p", none, 1/2, 1/2⟩] 1 0
  exact ⟨by decide, h.1, h.2 (by decide)⟩

/-- C5: for a sitemap with three product URLs (priority 0.9, modified
today, day 1000) and two blog URLs (priority 0.5, modified 30 days ago,
day 970), with the five-day cutoff at day 995 and `max_urls = 4`, the
selection returns exactly four URLs: all three product URLs plus one of
the blog URLs, and nothing categorized as `other`. -/
theorem select_intelligent_urls_scenario :
    (select_intelligent_urls
      [⟨"https://shop.example.com/product/alpha", some 1000, 9/10,
        calculate_relevance_score "https://shop.example.com/product/alpha" (9/10)⟩,
       ⟨"https://shop.example.com/product/beta", some 1000, 9/10,
        calculate_relevance_score "https://shop.example.com/product/beta" (9/10)⟩,
       ⟨"https://shop.example.com/product/gamma", some 1000, 9/10,
        calculate_relevance_score "https://shop.example.com/product/gamma" (9/10)⟩,
       ⟨"https://shop.example.com/blog/postone", some 970, 1/2,
        calculate_relevance_score "https://shop.example.com/blog/postone" (1/2)⟩,
       ⟨"https://shop.example.com/blog/posttwo", some 970, 1/2,
        calculate_relevance_score "https://shop.example.com/blog/posttwo" (1/2)⟩]
      4 995).length = 4 ∧
    "https://shop.example.com/product/alpha" ∈ select_intelligent_urls
      [⟨"https://shop.example.com/product/alpha", some 1000, 9/10,
        calculate_relevance_score "https://shop.example.com/product/alpha" (9/10)⟩,
       ⟨"https://shop.example.com/product/beta", some 1000, 9/10,
        calculate_relevance_score "https://shop.example.com/product/beta" (9/10)⟩,
       ⟨"https://shop.example.com/product/gamma", some 1000, 9/10,
        calculate_relevance_score "https://shop.example.com/product/gamma" (9/10)⟩,
       ⟨"https://shop.example.com/blog/postone", some 970, 1/2,
        calculate_relevance_score "https://shop.example.com/blog/postone" (1/2)⟩,
       ⟨"https://shop.example.com/blog/posttwo", some 970, 1/2,
        calculate_relevance_score "https://shop.example.com/blog/posttwo" (1/2)⟩]
      4 995 ∧
    "https://shop.example.com/product/beta" ∈ select_intelligent_urls
      [⟨"https://shop.example.com/product/alpha", some 1000, 9/10,
        calculate_relevance_score "https://shop.example.com/product/alpha" (9/10)⟩,
       ⟨"https://shop.example.com/product/beta", some 1000, 9/10,
        calculate_relevance_score "https://shop.example.com/product/beta" (9/10)⟩,
       ⟨"https://shop.example.com/product/gamma", some 1000, 9/10,
        calculate_relevance_score "https://shop.example.com/product/gamma" (9/10)⟩,
       ⟨"https://shop.example.com/blog/postone", some 970, 1/2,
        calculate_relevance_score "https://shop.example.com/blog/postone" (1/2)⟩,
       ⟨"https://shop.example.com/blog/posttwo", some 970, 1/2,
        calculate_relevance_score "https://shop.example.com/blog/posttwo" (1/2)⟩]
      4 995 ∧
    "https://shop.example.com/product/gamma" ∈ select_intelligent_urls
      [⟨"https://shop.example.com/product/alpha", some 1000, 9/10,
        calculate_relevance_score "https://shop.example.com/product/alpha" (9/10)⟩,
       ⟨"https://shop.example.com/product/beta", some 1000, 9/10,
        calculate_relevance_score "https://shop.example.com/product/beta" (9/10)⟩,
       ⟨"https://shop.example.com/product/gamma", some 1000, 9/10,
        calculate_relevance_score "https://shop.example.com/product/gamma" (9/10)⟩,
       ⟨"https://shop.example.com/blog/postone", some 970, 1/2,
        calculate_relevance_score "https://shop.example.com/blog/postone" (1/2)⟩,
       ⟨"https://shop.example.com/blog/posttwo", some 970, 1/2,
        calculate_relevance_score "https://shop.example.com/blog/posttwo" (1/2)⟩]
      4 995 ∧
    (List.filter (fun u => is_blog_url u) (select_intelligent_urls
      [⟨"https://shop.example.com/product/alpha", some 1000, 9/10,
        calculate_relevance_score "https://shop.example.com/product/alpha" (9/10)⟩,
       ⟨"https://shop.example.com/product/beta", some 1000, 9/10,
        calculate_relevance_score "https://shop.example.com/product/beta" (9/10)⟩,
       ⟨"https://shop.example.com/product/gamma", some 1000, 9/10,
        calculate_relevance_score "https://shop.example.com/product/gamma" (9/10)⟩,
       ⟨"https://shop.example.com/blog/postone", some 970, 1/2,
        calculate_relevance_score "https://shop.example.com/blog/postone" (1/2)⟩,
       ⟨"https://shop.example.com/blog/posttwo", some 970, 1/2,
        calculate_relevance_score "https://shop.example.com/blog/posttwo" (1/2)⟩]
      4 995)).length = 1 ∧
    ∀ u ∈ select_intelligent_urls
      [⟨"https://shop.example.com/product/alpha", some 1000, 9/10,
        calculate_relevance_score "https://shop.example.com/product/alpha" (9/10)⟩,
       ⟨"https://shop.example.com/product/beta", some 1000, 9/10,
        calculate_relevance_score "https://shop.example.com/product/beta" (9/10)⟩,
       ⟨"https://shop.example.com/product/gamma", some 1000, 9/10,
        calculate_relevance_score "https://shop.example.com/product/gamma" (9/10)⟩,
       ⟨"https://shop.example.com/blog/postone", some 970, 1/2,
        calculate_relevance_score "https://shop.example.com/blog/postone" (1/2)⟩,
       ⟨"https://shop.example.com/blog/posttwo", some 970, 1/2,
        calculate_relevance_score "https://shop.example.com/blog/posttwo" (1/2)⟩]
      4 995, url_category u ≠ .other := by
  decide

/-- C8: when the intelligent selection produced at least one URL to
process but every per-page analysis fails, `analyze_domain` raises
HTTP 500 rather than returning a zero-filled summary. -/
theorem analyze_domain_zero_success_fatal (urls_to_process : List String)
    (process_url : String → Option ℕ)
    (h1 : urls_to_process ≠ [])
    (h2 : ∀ u ∈ urls_to_process, process_url u = none) :
    analyze_domain urls_to_process process_url =
      .httpError 500 "No se pudieron procesar URLs válidas" := by
  unfold analyze_domain
  rw [if_neg (by simpa using h1)]
  have hmap : urls_to_process.filterMap process_url = [] :=
    List.filterMap_eq_nil_iff.mpr h2
  rw [hmap]
  rfl

/-- C8 witness: one selected URL whose analysis fails yields the
HTTP 500 error. -/
theorem analyze_domain_zero_success_fatal_witness :
    (["https://x.example/p"] ≠ ([] : List String)) ∧
    analyze_domain ["https://x.example/p"] (fun _ => none) =
      .httpError 500 "No se pudieron procesar URLs válidas" :=
  ⟨by decide, analyze_domain_zero_success_fatal _ _ (by decide) (fun _ _ => rfl)⟩

end SeoPipeline
